import Mathlib

/-!
Shallow embedding of the rseq CPU-local-storage memory-pool allocator
(src/rseq-percpu-alloc.c) on a 64-bit target (RSEQ_BITS_PER_LONG = 64).

Machine words are modelled as `Nat` with explicit `2 ^ 64` bounds where
overflow matters.  Process memory is a byte map `Nat → Nat`.  The robust
free bitmap (a C array of `unsigned long`) is modelled as a single `Nat`
holding the little-endian concatenation of the 64-bit words; `bm_word`
and `bm_set_word` give the array cells.  The intrusive free list (whose
nodes live in CPU 0's slice) is represented by the list of item offsets,
head first; `rseq_percpu_free_body` still performs the link-word store
into memory that the C code does.

An assertion failure (`assert` aborts the process) is modelled by the
`none` case of an `Option` result.
-/

set_option maxHeartbeats 1000000

/-! Constants from the source, for the 64-bit configuration. -/

def RSEQ_BITS_PER_LONG : Nat := 64

def POOL_INDEX_BITS : Nat := 16

def MAX_NR_POOLS : Nat := 1 <<< POOL_INDEX_BITS

def POOL_INDEX_SHIFT : Nat := RSEQ_BITS_PER_LONG - POOL_INDEX_BITS

def MAX_POOL_LEN : Nat := 1 <<< POOL_INDEX_SHIFT

def MAX_POOL_LEN_MASK : Nat := MAX_POOL_LEN - 1

def POOL_SET_NR_ENTRIES : Nat := POOL_INDEX_SHIFT

def POOL_SET_MIN_ENTRY : Nat := 3

def FIRST_POOL : Nat := 1

def BIT_PER_ULONG : Nat := 64

def UINTPTR_MAX : Nat := 2 ^ 64 - 1

def ENOENT : Nat := 2

def ENOMEM : Nat := 12

/-- Byte-addressed process memory. -/
def Mem : Type := Nat → Nat

/-- Word `k` of the robust free bitmap (`bitmap[k]` in C, an `unsigned long`). -/
def bm_word (bm k : Nat) : Nat := bm >>> (64 * k) % 2 ^ 64

/-- Replace word `k` of the bitmap with `w` (an in-range 64-bit value). -/
def bm_set_word (bm k w : Nat) : Nat :=
  bm - bm_word bm k <<< (64 * k) + w <<< (64 * k)

/-- mask_free_slot (rseq-percpu-alloc.c:348-365): mark `item_index` as
allocated.  The C code computes `mask = 1ULL << (item_index % BIT_PER_ULONG)`,
asserts the bit is 0, then sets it.  `none` models the assertion abort;
a `none` bitmap (non-robust pool, or failed bitmap allocation) is a no-op. -/
def mask_free_slot (bitmap : Option Nat) (item_index : Nat) : Option (Option Nat) :=
  match bitmap with
  | none => some none
  | some bm =>
    let k := item_index / BIT_PER_ULONG
    let mask := 1 <<< (item_index % BIT_PER_ULONG)
    if bm_word bm k &&& mask = 0 then
      some (some (bm_set_word bm k (bm_word bm k ||| mask)))
    else
      none

/-- Value of the C expression `(unsigned long)(1 << s)` in unmask_free_slot
(rseq-percpu-alloc.c:421), where the literal `1` has type `int` (32 bits).
For `s ≥ 31` this shift is undefined behaviour in C; this definition gives
the behaviour produced on the common 64-bit targets (x86-64, aarch64 with
gcc/clang): the shift count is taken modulo 32 and the 32-bit signed result
is sign-extended to the 64-bit `unsigned long`. -/
def int_shift_mask (s : Nat) : Nat :=
  let v := 1 <<< (s % 32) % 2 ^ 32
  if v < 2 ^ 31 then v else 2 ^ 64 - 2 ^ 32 + v

/-- unmask_free_slot (rseq-percpu-alloc.c:410-427): mark `item_index` as free.
Asserts the bit is currently set, then clears it.  Note the C code builds the
mask with the `int` literal `1` (not `1ULL` as in mask_free_slot); see
`int_shift_mask`. -/
def unmask_free_slot (bitmap : Option Nat) (item_index : Nat) : Option (Option Nat) :=
  match bitmap with
  | none => some none
  | some bm =>
    let k := item_index / BIT_PER_ULONG
    let mask := int_shift_mask (item_index % BIT_PER_ULONG)
    if bm_word bm k &&& mask = mask then
      some (some (bm_set_word bm k (bm_word bm k &&& (UINTPTR_MAX ^^^ mask))))
    else
      none

/-- struct rseq_percpu_pool (rseq-percpu-alloc.c:88-112).  `base = 0`
models a NULL base (empty directory slot).  `free_list` is the list of item
offsets chained through the free-list nodes, head (`free_list_head`) first;
`free_bitmap = none` models a NULL bitmap pointer. -/
structure PoolState where
  base : Nat
  index : Nat
  item_len : Nat
  percpu_len : Nat
  item_order : Nat
  max_nr_cpus : Nat
  free_list : List Nat
  next_unused : Nat
  free_bitmap : Option Nat

/-- Model of __rseq_pool_percpu_ptr (rseq-percpu-alloc.c:128-132):
`pool->base + (pool->percpu_len * cpu) + item_offset`. -/
def __rseq_pool_percpu_ptr (pool : PoolState) (cpu : Nat) (item_offset : Nat) : Nat :=
  pool.base + pool.percpu_len * cpu + item_offset

/-- Model of __rseq_percpu_ptr (rseq-percpu-alloc.c:134-143): decode the handle and
compute the per-CPU address from the pool found in the global directory. -/
def __rseq_percpu_ptr (ptr : Nat) (dir : Nat → PoolState) (cpu : Nat) : Nat :=
  let item_offset := ptr &&& MAX_POOL_LEN_MASK
  let pool_index := ptr >>> POOL_INDEX_SHIFT
  __rseq_pool_percpu_ptr (dir pool_index) cpu item_offset

/-- Effect of `memset(p, 0, len)` on byte memory. -/
def memset0 (mem : Mem) (p len : Nat) : Mem :=
  fun a => if p ≤ a ∧ a < p + len then 0 else mem a

/-- The loop of rseq_percpu_zero_item (rseq-percpu-alloc.c:145-154), after
`n` iterations (cpus `0 .. n-1` processed, in the C iteration order). -/
def zero_item_upto (pool : PoolState) (item_offset : Nat) (mem : Mem) : Nat → Mem
  | 0 => mem
  | n + 1 =>
    memset0 (zero_item_upto pool item_offset mem n)
      (__rseq_pool_percpu_ptr pool n item_offset) pool.item_len

/-- rseq_percpu_zero_item: memset `item_len` bytes to zero at `item_offset`
in every CPU's slice. -/
def rseq_percpu_zero_item (pool : PoolState) (item_offset : Nat) (mem : Mem) : Mem :=
  zero_item_upto pool item_offset mem pool.max_nr_cpus

/-- Model of __rseq_percpu_malloc (rseq-percpu-alloc.c:368-398).
Result: `none` = assertion abort inside mask_free_slot; `some (none, p, m)` =
NULL return with errno = ENOMEM (pool and memory unchanged);
`some (some addr, p', m')` = success.  The free-list pop computes
`item_offset = node - base` which, nodes being stored in CPU 0's slice at
their item offset, is the stored offset itself.  Note the pop path does not
call mask_free_slot.  The fields of the pool consulted by
rseq_percpu_zero_item are untouched by the update, so zeroing with the
updated pool equals the C call on the mutated pool. -/
def __rseq_percpu_malloc (pool : PoolState) (zeroed : Bool) (mem : Mem) :
    Option (Option Nat × PoolState × Mem) :=
  match pool.free_list with
  | node_offset :: rest =>
    let item_offset := node_offset
    let addr := pool.index <<< POOL_INDEX_SHIFT ||| item_offset
    let pool' := { pool with free_list := rest }
    some (some addr, pool',
      if zeroed then rseq_percpu_zero_item pool' item_offset mem else mem)
  | [] =>
    if pool.next_unused + pool.item_len > pool.percpu_len then
      some (none, pool, mem)
    else
      let item_offset := pool.next_unused
      let addr := pool.index <<< POOL_INDEX_SHIFT ||| item_offset
      match mask_free_slot pool.free_bitmap (item_offset >>> pool.item_order) with
      | none => none
      | some bitmap' =>
        let pool' := { pool with
          next_unused := pool.next_unused + pool.item_len, free_bitmap := bitmap' }
        some (some addr, pool',
          if zeroed then rseq_percpu_zero_item pool' item_offset mem else mem)

/-- rseq_percpu_malloc (rseq-percpu-alloc.c:400-403). -/
def rseq_percpu_malloc (pool : PoolState) (mem : Mem) :
    Option (Option Nat × PoolState × Mem) :=
  __rseq_percpu_malloc pool false mem

/-- rseq_percpu_zmalloc (rseq-percpu-alloc.c:405-408). -/
def rseq_percpu_zmalloc (pool : PoolState) (mem : Mem) :
    Option (Option Nat × PoolState × Mem) :=
  __rseq_percpu_malloc pool true mem

/-- Effect of the 8-byte store `item->next = head` on byte memory
(little-endian store of the pointer value `v` at address `p`). -/
def writeWord (mem : Mem) (p v : Nat) : Mem :=
  fun a => if p ≤ a ∧ a < p + 8 then v >>> (8 * (a - p)) % 2 ^ 8 else mem a

/-- Body of rseq_percpu_free (rseq-percpu-alloc.c:437-445) once the pool has
been located: unmask the slot (may abort), store the old head pointer into
the node at CPU 0's slice, push the offset on the free list. -/
def rseq_percpu_free_body (pool : PoolState) (item_offset : Nat) (mem : Mem) :
    Option (PoolState × Mem) :=
  match unmask_free_slot pool.free_bitmap (item_offset >>> pool.item_order) with
  | none => none
  | some bitmap' =>
    let head_ptr : Nat :=
      match pool.free_list with
      | [] => 0
      | off :: _ => __rseq_pool_percpu_ptr pool 0 off
    let mem' := writeWord mem (__rseq_pool_percpu_ptr pool 0 item_offset) head_ptr
    some ({ pool with free_bitmap := bitmap', free_list := item_offset :: pool.free_list },
      mem')

/-- rseq_percpu_free (rseq-percpu-alloc.c:429-446): decode the handle, look
the pool up in the directory, run the free body and store the updated pool
back (the C code mutates it in place). -/
def rseq_percpu_free (ptr : Nat) (dir : Nat → PoolState) (mem : Mem) :
    Option ((Nat → PoolState) × Mem) :=
  let item_offset := ptr &&& MAX_POOL_LEN_MASK
  let pool_index := ptr >>> POOL_INDEX_SHIFT
  match rseq_percpu_free_body (dir pool_index) item_offset mem with
  | none => none
  | some (pool', mem') => some (fun j => if j = pool_index then pool' else dir j, mem')

/-- The check loop of destroy_free_bitmap (rseq-percpu-alloc.c:234-236):
words `0 .. count-1` must all be zero. -/
def bitmap_words_zero (bm : Nat) : Nat → Bool
  | 0 => true
  | k + 1 => bitmap_words_zero bm k && (bm_word bm k == 0)

/-- destroy_free_bitmap (rseq-percpu-alloc.c:222-239): NULL bitmap is a
no-op; otherwise every word of the bitmap is asserted to be zero
(`nr_items` is the `item_len` argument of the C function, the number of
slots in the pool). -/
def destroy_free_bitmap_ok (bitmap : Option Nat) (nr_items : Nat) : Bool :=
  match bitmap with
  | none => true
  | some bm => bitmap_words_zero bm ((nr_items + BIT_PER_ULONG - 1) / BIT_PER_ULONG)

/-- The zeroed pool left by `memset(pool, 0, sizeof(*pool))` at the end of a
successful destroy. -/
def cleared_pool : PoolState :=
  { base := 0, index := 0, item_len := 0, percpu_len := 0, item_order := 0,
    max_nr_cpus := 0, free_list := [], next_unused := 0, free_bitmap := none }

/-- Outcome of rseq_percpu_pool_destroy: the value it returns, the errno it
leaves (none = errno untouched by the call), and the pool afterwards. -/
structure DestroyRet where
  retval : Int
  errno : Option Nat
  pool : PoolState

/-- rseq_percpu_pool_destroy (rseq-percpu-alloc.c:325-346).  The munmap
backend callback is external: its return value and the errno it sets are
parameters.  Every non-aborting path executes the final `return 0;`
(line 345) -- including the `!pool->base` path, which sets the local
`ret = -1` and errno = ENOENT but then returns 0, and the failed-munmap
path.  `none` models the destroy_free_bitmap leak assertion abort. -/
def rseq_percpu_pool_destroy (pool : PoolState) (munmap_ret : Int) (munmap_errno : Nat) :
    Option DestroyRet :=
  if pool.base = 0 then
    some { retval := 0, errno := some ENOENT, pool := pool }
  else if munmap_ret ≠ 0 then
    some { retval := 0, errno := some munmap_errno, pool := pool }
  else if destroy_free_bitmap_ok pool.free_bitmap (pool.percpu_len >>> pool.item_order) then
    some { retval := 0, errno := none, pool := cleared_pool }
  else
    none

/-- Ceiling of log2, by structural recursion on fuel (64 is enough for any
value below `2 ^ 64`): `clog2_aux x _ = 0` for `x ≤ 1`, else
`1 + clog2 (ceil (x / 2))`. -/
def clog2_aux : Nat → Nat → Nat
  | _, 0 => 0
  | x, fuel + 1 => if x ≤ 1 then 0 else clog2_aux ((x + 1) / 2) fuel + 1

/-- Modelled from the spec: `rseq_get_count_order_ulong` lives in
rseq-alloc-utils.h, which is not part of the sources; per the spec it
computes the next-power-of-two order, `order = ceiling log2`, and the
caller checks `order < 0` (the value for input 0). -/
def rseq_get_count_order_ulong (x : Nat) : Int :=
  if x = 0 then -1 else Int.ofNat (clog2_aux x 64)

/-- Modelled from the spec: `rseq_align` lives in rseq-alloc-utils.h, which
is not part of the sources; per the spec it rounds `v` up to a multiple of
the alignment `a` (the page length). -/
def rseq_align (v a : Nat) : Nat := (v + a - 1) / a * a

/-- The argument-checking and size-adjustment prefix of
rseq_percpu_pool_create (rseq-percpu-alloc.c:259-278), for valid flags:
raise `item_len` to `sizeof(void *)` = 8, round it to the next power of
two, page-align `percpu_len`, then reject (`none` = NULL return with
errno = EINVAL) if `max_nr_cpus < 0`, `item_len > percpu_len` or
`percpu_len > UINTPTR_MAX >> POOL_INDEX_BITS`.  On success returns the
adjusted `(item_len, item_order, percpu_len)`.  The page length (from
`rseq_get_page_len`, not in the sources) is a parameter. -/
def pool_create_check (item_len percpu_len : Nat) (max_nr_cpus : Int) (page_len : Nat) :
    Option (Nat × Nat × Nat) :=
  let item_len1 := if item_len < 8 then 8 else item_len
  let order := rseq_get_count_order_ulong item_len1
  if order < 0 then
    none
  else
    let item_len2 := 1 <<< order.toNat
    let percpu_len1 := rseq_align percpu_len page_len
    if max_nr_cpus < 0 ∨ item_len2 > percpu_len1 ∨
        percpu_len1 > UINTPTR_MAX >>> POOL_INDEX_BITS then
      none
    else
      some (item_len2, order.toNat, percpu_len1)

/-- The pool set up by rseq_percpu_pool_create (rseq-percpu-alloc.c:300-319)
in directory slot `i` once the checks passed and `mmap` returned `base`:
empty free list, bump cursor at 0, and an all-zero bitmap (from `calloc`)
when the robust flag is set. -/
def pool_create_state (i base item_len order percpu_len max_nr_cpus : Nat)
    (robust : Bool) : PoolState :=
  { base := base, index := i, item_len := item_len, percpu_len := percpu_len,
    item_order := order, max_nr_cpus := max_nr_cpus, free_list := [],
    next_unused := 0, free_bitmap := if robust then some 0 else none }

/-- The scan loop of __rseq_percpu_pool_set_malloc (rseq-percpu-alloc.c:509-516):
first order `o ≥ start` (scanning `fuel` entries) whose entry is non-NULL and
whose `item_len` fits `len`. -/
def find_from (entries : Nat → Option PoolState) (len : Nat) :
    Nat → Nat → Option (Nat × PoolState)
  | 0, _ => none
  | fuel + 1, o =>
    match entries o with
    | none => find_from entries len fuel (o + 1)
    | some pool =>
      if pool.item_len ≥ len then some (o, pool) else find_from entries len fuel (o + 1)

/-- Outcome of a pool-set allocation: assertion abort, NULL with
errno = ENOMEM, or an allocated handle. -/
inductive SetMallocResult where
  | abort : SetMallocResult
  | fail : SetMallocResult
  | ok : Nat → SetMallocResult
deriving DecidableEq

/-- The `again:` loop of __rseq_percpu_pool_set_malloc
(rseq-percpu-alloc.c:506-535) starting at `min_order`.  On a NULL + ENOMEM
allocation the C code retries from `order + 1`; a failed
__rseq_percpu_malloc leaves its pool and the memory unchanged (it returns
them as they were), so the retry passes `entries` and `mem` on unchanged,
exactly as the in-place C pools are unchanged.  On success the mutated pool
is stored back.  `fuel` bounds the retries; `POOL_SET_NR_ENTRIES + 1` is
enough since the start order grows strictly on every retry. -/
def set_malloc_from (entries : Nat → Option PoolState) (len : Nat) (zeroed : Bool) :
    Mem → Nat → Nat → SetMallocResult × (Nat → Option PoolState) × Mem
  | mem, _, 0 => (.fail, entries, mem)
  | mem, min_order, fuel + 1 =>
    match find_from entries len (POOL_SET_NR_ENTRIES - min_order) min_order with
    | none => (.fail, entries, mem)
    | some (order, pool) =>
      match __rseq_percpu_malloc pool zeroed mem with
      | none => (.abort, entries, mem)
      | some (none, _, _) => set_malloc_from entries len zeroed mem (order + 1) fuel
      | some (some addr, pool', mem') =>
        (.ok addr, fun j => if j = order then some pool' else entries j, mem')

/-- The start order computed at rseq-percpu-alloc.c:499-505:
`min_order = POOL_SET_MIN_ENTRY`, raised to `rseq_get_count_order_ulong len`
when that is larger (`len = 0` gives order −1, so the minimum is kept). -/
def pool_set_start_order (len : Nat) : Nat :=
  let order := rseq_get_count_order_ulong len
  if order > (POOL_SET_MIN_ENTRY : Int) then order.toNat else POOL_SET_MIN_ENTRY

/-- Model of __rseq_percpu_pool_set_malloc (rseq-percpu-alloc.c:496-536). -/
def __rseq_percpu_pool_set_malloc (entries : Nat → Option PoolState) (len : Nat)
    (zeroed : Bool) (mem : Mem) : SetMallocResult × (Nat → Option PoolState) × Mem :=
  set_malloc_from entries len zeroed mem (pool_set_start_order len) (POOL_SET_NR_ENTRIES + 1)

/-- Well-formedness of a live pool, as established by rseq_percpu_pool_create
and preserved by malloc/free: the item length is the power of two of
`item_order`; the directory index is in `[FIRST_POOL, MAX_NR_POOLS)`; the
per-CPU stride fits in the offset field; the bump cursor is an in-bounds
multiple of `item_len`; and every free-list offset is an in-bounds multiple
of `item_len`. -/
def PoolState.wf (p : PoolState) : Prop :=
  p.item_len = 2 ^ p.item_order ∧
  FIRST_POOL ≤ p.index ∧ p.index < MAX_NR_POOLS ∧
  p.percpu_len ≤ MAX_POOL_LEN ∧
  p.item_len ∣ p.next_unused ∧ p.next_unused ≤ p.percpu_len ∧
  ∀ off ∈ p.free_list, p.item_len ∣ off ∧ off + p.item_len ≤ p.percpu_len

/-! Concrete states used by the scenario theorems. -/

/-- All-zero byte memory. -/
def mem0 : Mem := fun _ => 0

/-- A small non-robust pool as created fresh in directory slot 1
(item_len 8, stride 4096, 2 CPUs, base 65536). -/
def pool0 : PoolState :=
  { base := 65536, index := 1, item_len := 8, percpu_len := 4096, item_order := 3,
    max_nr_cpus := 2, free_list := [], next_unused := 0, free_bitmap := none }

/-- A small robust pool as created fresh in directory slot 1
(item_len 8, stride 4096, 1 CPU, base 65536, all-free bitmap). -/
def pool0r : PoolState :=
  { base := 65536, index := 1, item_len := 8, percpu_len := 4096, item_order := 3,
    max_nr_cpus := 1, free_list := [], next_unused := 0, free_bitmap := some 0 }

/-- A robust pool in which exactly slot 32 is allocated (bitmap bit 32 set,
slots 0-32 handed out and 0-31 freed off the list, which is drained). -/
def pool32 : PoolState :=
  { base := 65536, index := 1, item_len := 8, percpu_len := 4096, item_order := 3,
    max_nr_cpus := 1, free_list := [], next_unused := 264,
    free_bitmap := some (1 <<< 32) }

/-- A directory holding `pool32` in slot 1. -/
def dir32 : Nat → PoolState := fun j => if j = 1 then pool32 else cleared_pool

theorem clog2_aux_sanity : clog2_aux 8 64 = 3 ∧ clog2_aux 9 64 = 4 ∧ clog2_aux 1 64 = 0 := by
  decide

theorem int_shift_mask_sanity :
    int_shift_mask 0 = 1 ∧ int_shift_mask 30 = 2 ^ 30 ∧
    int_shift_mask 31 = 2 ^ 64 - 2 ^ 32 + 2 ^ 31 := by
  decide

theorem uintptr_shift_sanity : UINTPTR_MAX >>> POOL_INDEX_BITS = 2 ^ 48 - 1 := by
  decide

/-! Shared decode/arithmetic lemmas for the handle codec. -/

theorem lor_shiftLeft_land (a b w : Nat) (hb : b < 2 ^ w) :
    (a <<< w ||| b) &&& (2 ^ w - 1) = b := by
  rw [Nat.and_pow_two_sub_one_eq_mod]
  apply Nat.eq_of_testBit_eq
  intro i
  rcases lt_or_ge i w with h | h
  · simp [Nat.testBit_mod_two_pow, h, Nat.testBit_shiftLeft, Nat.not_le.2 h]
  · simp [Nat.testBit_mod_two_pow, Nat.not_lt.2 h,
      Nat.testBit_lt_two_pow (lt_of_lt_of_le hb (Nat.pow_le_pow_right (by norm_num) h))]

theorem lor_shiftLeft_shiftRight (a b w : Nat) (hb : b < 2 ^ w) :
    (a <<< w ||| b) >>> w = a := by
  apply Nat.eq_of_testBit_eq
  intro i
  rw [Nat.testBit_shiftRight, Nat.testBit_or, Nat.testBit_shiftLeft]
  simp [Nat.le_add_right,
    Nat.testBit_lt_two_pow
      (lt_of_lt_of_le hb (Nat.pow_le_pow_right (by norm_num) (Nat.le_add_right w i)))]

theorem lor_shiftLeft_ne_zero (a b w : Nat) (ha : 1 ≤ a) (hb : b < 2 ^ w) :
    a <<< w ||| b ≠ 0 := by
  intro h
  have := lor_shiftLeft_shiftRight a b w hb
  rw [h] at this
  simp [Nat.zero_shiftRight] at this
  omega

theorem MAX_POOL_LEN_eq : MAX_POOL_LEN = 2 ^ 48 := by decide

theorem MAX_POOL_LEN_MASK_eq : MAX_POOL_LEN_MASK = 2 ^ 48 - 1 := by decide

/-- Claim C10.  When `__rseq_percpu_malloc` fails (the free list is empty and
the bump cursor has no room for another item), it returns NULL with
errno = ENOMEM and the pool is returned exactly as it was: free-list head,
`next_unused` and the robust bitmap are unchanged, and memory is untouched. -/
theorem malloc_fail_frame (p : PoolState) (zeroed : Bool) (mem : Mem)
    (hempty : p.free_list = []) (hfull : p.percpu_len < p.next_unused + p.item_len) :
    __rseq_percpu_malloc p zeroed mem = some (none, p, mem) := by
  unfold __rseq_percpu_malloc
  rw [hempty]
  simp [hfull]

theorem malloc_fail_frame_witness :
    ({ pool0 with next_unused := 4096 } : PoolState).free_list = [] ∧
    ({ pool0 with next_unused := 4096 } : PoolState).percpu_len <
      ({ pool0 with next_unused := 4096 } : PoolState).next_unused +
        ({ pool0 with next_unused := 4096 } : PoolState).item_len ∧
    __rseq_percpu_malloc { pool0 with next_unused := 4096 } false mem0 =
      some (none, { pool0 with next_unused := 4096 }, mem0) :=
  ⟨rfl, by decide, malloc_fail_frame { pool0 with next_unused := 4096 } false mem0 rfl (by decide)⟩

/-- Claim C2 (code bug).  rseq_percpu_pool_destroy ends in `return 0;`
(rseq-percpu-alloc.c:345), not `return ret;`, so destroying a pool that was
never allocated (NULL base) sets errno = ENOENT but still returns 0, and a
failing munmap callback (here returning -1 with errno EINVAL) also yields
return value 0 -- while the header documentation and the spec require -1 in
both cases. -/
theorem pool_destroy_returns_zero_on_error :
    rseq_percpu_pool_destroy cleared_pool 0 0 =
      some { retval := 0, errno := some ENOENT, pool := cleared_pool } ∧
    (rseq_percpu_pool_destroy pool0 (-1) 22).map DestroyRet.retval = some 0 ∧
    (0 : Int) ≠ -1 :=
  ⟨rfl, rfl, by decide⟩

/-- Claim C3 (code bug).  unmask_free_slot computes its mask by shifting the
`int` literal `1` (rseq-percpu-alloc.c:421), so for slot indices ≥ 31 on a
64-bit target the mask is wrong (for index 32 it is 1, the mask of slot 0,
instead of `2 ^ 32`).  Consequently, on a robust pool in which exactly slot
32 is allocated -- its bitmap bit is 1, as the claim requires -- freeing the
handle of slot 32 (item offset 256, item order 3) fails the
`assert(mask == (bitmap[k] & mask))` and aborts instead of flipping the bit
from 1 to 0.  mask_free_slot, which uses `1ULL`, computes the correct mask
for the same index. -/
theorem free_slot32_aborts_despite_allocated :
    bm_word (1 <<< 32) 0 &&& 2 ^ 32 = 2 ^ 32 ∧
    int_shift_mask 32 = 1 ∧
    mask_free_slot (some 0) 32 = some (some (1 <<< 32)) ∧
    rseq_percpu_free (1 <<< POOL_INDEX_SHIFT ||| 256) dir32 mem0 = none :=
  ⟨by decide, by decide, by decide, rfl⟩

/-- Claim C1 (code bug).  The free-list pop path of __rseq_percpu_malloc
(rseq-percpu-alloc.c:377-383) does not call mask_free_slot.  On a fresh
robust pool: the first malloc (bump path) sets bitmap bit 0; freeing the
handle clears it; the next malloc is served by popping the free list and
returns the same handle while its bitmap bit stays 0 -- contradicting the
claim that after any malloc returns, the slot's bit is 1.  As a consequence
a subsequent legitimate free of that handle fails the unmask assertion and
aborts. -/
theorem malloc_pop_path_leaves_bit_clear :
    (match __rseq_percpu_malloc pool0r false mem0 with
     | some (some h1, p1, m1) =>
       (match rseq_percpu_free_body p1 (h1 &&& MAX_POOL_LEN_MASK) m1 with
        | some (p2, m2) =>
          (match __rseq_percpu_malloc p2 false m2 with
           | some (some h3, p3, _) =>
             h3 = h1 ∧
             (match p3.free_bitmap with
              | some bm => bm_word bm 0 &&& 1 = 0
              | none => False) ∧
             rseq_percpu_free_body p3 (h3 &&& MAX_POOL_LEN_MASK) m2 = none
           | _ => False)
        | _ => False)
     | _ => False) :=
  ⟨rfl, rfl, rfl⟩

/-- Claim C4, counterexample.  The claim says a rounded stride equal to
`2 ^ (W-I)` = `2 ^ 48` is accepted.  It is not: with `item_len = 8`,
`max_nr_cpus = 0` and a page length of 4096, a stride of exactly `2 ^ 48`
(already page aligned, at least item_len, with non-negative max_cpus, and
not exceeding `2 ^ 48`) is rejected with EINVAL, because the code compares
the stride against `UINTPTR_MAX >> POOL_INDEX_BITS` = `2 ^ 48 - 1`. -/
theorem pool_create_stride_2pow48_rejected :
    pool_create_check 8 (2 ^ 48) 0 4096 = none ∧
    ¬ ((0 : Int) < 0) ∧
    rseq_align (2 ^ 48) 4096 = 2 ^ 48 ∧
    2 ^ clog2_aux (max 8 8) 64 ≤ 2 ^ 48 ∧
    ¬ (2 ^ 48 > 2 ^ 48) :=
  ⟨by decide, by decide, by norm_num [rseq_align], by decide, by omega⟩

/-- Claim C4, amended.  For valid flags, pool creation fails with
errno = EINVAL exactly when `max_nr_cpus < 0`, or the power-of-two-rounded
item length exceeds the page-aligned stride, or the page-aligned stride is
at least `2 ^ 48` (i.e. exceeds `2 ^ (W-I) - 1`, not `2 ^ (W-I)` as the
claim stated). -/
theorem pool_create_check_einval_iff (item_len percpu_len : Nat) (max_nr_cpus : Int)
    (page_len : Nat) :
    pool_create_check item_len percpu_len max_nr_cpus page_len = none ↔
      (max_nr_cpus < 0 ∨
       rseq_align percpu_len page_len < 2 ^ clog2_aux (max item_len 8) 64 ∨
       2 ^ 48 ≤ rseq_align percpu_len page_len) := by
  have hmax : (if item_len < 8 then 8 else item_len) = max item_len 8 := by
    rcases Nat.lt_or_ge item_len 8 with h | h
    · simp [h, Nat.max_eq_right (le_of_lt h)]
    · simp [Nat.not_lt.2 h, Nat.max_eq_left h]
  have hne : ¬ (rseq_get_count_order_ulong (if item_len < 8 then 8 else item_len) < 0) := by
    unfold rseq_get_count_order_ulong
    have : (if item_len < 8 then 8 else item_len) ≠ 0 := by split <;> omega
    rw [if_neg this]
    exact Int.not_lt.2 (Int.ofNat_nonneg _)
  have htoNat : (rseq_get_count_order_ulong (if item_len < 8 then 8 else item_len)).toNat =
      clog2_aux (max item_len 8) 64 := by
    unfold rseq_get_count_order_ulong
    have : (if item_len < 8 then 8 else item_len) ≠ 0 := by split <;> omega
    rw [if_neg this, hmax]
    rfl
  have hmask : UINTPTR_MAX >>> POOL_INDEX_BITS = 2 ^ 48 - 1 := by decide
  simp only [pool_create_check, if_neg hne, htoNat, hmask, Nat.shiftLeft_eq, one_mul]
  constructor
  · intro h
    split at h
    · rename_i hc
      rcases hc with hc | hc | hc
      · exact Or.inl hc
      · exact Or.inr (Or.inl hc)
      · exact Or.inr (Or.inr (by omega))
    · simp at h
  · intro h
    have : max_nr_cpus < 0 ∨ rseq_align percpu_len page_len < 2 ^ clog2_aux (max item_len 8) 64 ∨
        rseq_align percpu_len page_len > 2 ^ 48 - 1 := by
      rcases h with h | h | h
      · exact Or.inl h
      · exact Or.inr (Or.inl h)
      · exact Or.inr (Or.inr (by omega))
    rw [if_pos this]

theorem two_pow_shift_eq : (2 : Nat) ^ POOL_INDEX_SHIFT = MAX_POOL_LEN := by decide

/-- Claim C5.  Every handle returned by a successful malloc or zmalloc from
a well-formed (live) pool decodes to the pool's directory index in its high
I bits, and to an item offset (low W-I bits) that is a multiple of the
pool's item length and strictly below the pool's stride; the handle is
nonzero because the pool index is at least FIRST_POOL = 1. -/
theorem malloc_handle_decode (p : PoolState) (zeroed : Bool) (mem : Mem) (hwf : p.wf)
    (addr : Nat) (p' : PoolState) (mem' : Mem)
    (h : __rseq_percpu_malloc p zeroed mem = some (some addr, p', mem')) :
    addr >>> POOL_INDEX_SHIFT = p.index ∧
    p.item_len ∣ (addr &&& MAX_POOL_LEN_MASK) ∧
    addr &&& MAX_POOL_LEN_MASK < p.percpu_len ∧
    FIRST_POOL ≤ addr >>> POOL_INDEX_SHIFT ∧
    addr ≠ 0 := by
  obtain ⟨hpow, hidx1, hidx2, hplen, hdvd, hnext, hfree⟩ := hwf
  have hlen0 : 0 < p.item_len := by rw [hpow]; exact Nat.pos_pow_of_pos _ (by norm_num)
  have key : ∃ off, addr = p.index <<< POOL_INDEX_SHIFT ||| off ∧
      p.item_len ∣ off ∧ off + p.item_len ≤ p.percpu_len := by
    unfold __rseq_percpu_malloc at h
    rcases hl : p.free_list with _ | ⟨off, rest⟩ <;> simp only [hl] at h
    · split at h
      · simp at h
      · rename_i hroom
        rcases hm : mask_free_slot p.free_bitmap (p.next_unused >>> p.item_order)
            with _ | bm' <;> simp only [hm] at h
        · simp at h
        · simp only [Option.some.injEq, Prod.mk.injEq] at h
          exact ⟨p.next_unused, h.1.symm, hdvd, by omega⟩
    · simp only [Option.some.injEq, Prod.mk.injEq] at h
      exact ⟨off, h.1.symm, (hfree off (by rw [hl]; exact List.mem_cons_self _ _)).1,
        (hfree off (by rw [hl]; exact List.mem_cons_self _ _)).2⟩
  obtain ⟨off, haddr, hoffdvd, hoffle⟩ := key
  have hoff48 : off < 2 ^ POOL_INDEX_SHIFT := by
    rw [two_pow_shift_eq]; omega
  subst haddr
  have hdec1 : (p.index <<< POOL_INDEX_SHIFT ||| off) >>> POOL_INDEX_SHIFT = p.index :=
    lor_shiftLeft_shiftRight _ _ _ hoff48
  have hdec2 : (p.index <<< POOL_INDEX_SHIFT ||| off) &&& MAX_POOL_LEN_MASK = off := by
    rw [MAX_POOL_LEN_MASK_eq]
    have := lor_shiftLeft_land p.index off POOL_INDEX_SHIFT hoff48
    rw [two_pow_shift_eq, MAX_POOL_LEN_eq] at this
    exact this
  refine ⟨hdec1, ?_, ?_, ?_, ?_⟩
  · rw [hdec2]; exact hoffdvd
  · rw [hdec2]; omega
  · rw [hdec1]; exact hidx1
  · exact lor_shiftLeft_ne_zero _ _ _ hidx1 hoff48

theorem malloc_handle_decode_witness :
    pool0r.wf ∧
    ((pool0r.index <<< POOL_INDEX_SHIFT ||| pool0r.next_unused) >>> POOL_INDEX_SHIFT =
        pool0r.index ∧
     pool0r.item_len ∣
       ((pool0r.index <<< POOL_INDEX_SHIFT ||| pool0r.next_unused) &&& MAX_POOL_LEN_MASK) ∧
     (pool0r.index <<< POOL_INDEX_SHIFT ||| pool0r.next_unused) &&& MAX_POOL_LEN_MASK <
        pool0r.percpu_len ∧
     FIRST_POOL ≤ (pool0r.index <<< POOL_INDEX_SHIFT ||| pool0r.next_unused) >>>
        POOL_INDEX_SHIFT ∧
     (pool0r.index <<< POOL_INDEX_SHIFT ||| pool0r.next_unused) ≠ 0) := by
  have hwf : pool0r.wf :=
    ⟨by decide, by decide, by decide, by decide, by decide, by decide, by decide⟩
  exact ⟨hwf, malloc_handle_decode pool0r false mem0 hwf _ _ _ rfl⟩

/-- Claim C6.  The free list is LIFO.  First conjunct: in a quiescent pool,
a malloc immediately after a successful free of item offset `off` pops the
free list and returns a handle carrying exactly `off` again.  Second
conjunct: after h1 = malloc, h2 = malloc, free h1, free h2, h3 = malloc,
h4 = malloc on a fresh pool, h3 equals h2 and h4 equals h1 (and h1 and h2
are distinct). -/
theorem free_then_malloc_lifo :
    (∀ (p : PoolState) (off : Nat) (mem : Mem) (p₁ : PoolState) (m₁ : Mem),
       rseq_percpu_free_body p off mem = some (p₁, m₁) → off < MAX_POOL_LEN →
       ∃ p₂ m₂, __rseq_percpu_malloc p₁ false m₁ =
           some (some (p.index <<< POOL_INDEX_SHIFT ||| off), p₂, m₂) ∧
         (p.index <<< POOL_INDEX_SHIFT ||| off) &&& MAX_POOL_LEN_MASK = off) ∧
    (match __rseq_percpu_malloc pool0 false mem0 with
     | some (some h1, p1, m1) =>
       (match __rseq_percpu_malloc p1 false m1 with
        | some (some h2, p2, m2) =>
          (match rseq_percpu_free_body p2 (h1 &&& MAX_POOL_LEN_MASK) m2 with
           | some (p3, m3) =>
             (match rseq_percpu_free_body p3 (h2 &&& MAX_POOL_LEN_MASK) m3 with
              | some (p4, m4) =>
                (match __rseq_percpu_malloc p4 false m4 with
                 | some (some h3, p5, m5) =>
                   (match __rseq_percpu_malloc p5 false m5 with
                    | some (some h4, _, _) => h3 = h2 ∧ h4 = h1 ∧ h1 ≠ h2
                    | _ => False)
                 | _ => False)
              | _ => False)
           | _ => False)
        | _ => False)
     | _ => False) := by
  constructor
  · intro p off mem p₁ m₁ hfree hoff
    unfold rseq_percpu_free_body at hfree
    split at hfree
    · simp at hfree
    · simp only [Option.some.injEq, Prod.mk.injEq] at hfree
      obtain ⟨hp₁, hm₁⟩ := hfree
      have hlist : p₁.free_list = off :: p.free_list := by rw [← hp₁]
      have hidx : p₁.index = p.index := by rw [← hp₁]
      refine ⟨{ p₁ with free_list := p.free_list }, m₁, ?_, ?_⟩
      · unfold __rseq_percpu_malloc
        simp only [hlist]
        rw [← hidx]
        rfl
      · rw [MAX_POOL_LEN_MASK_eq]
        have := lor_shiftLeft_land p.index off POOL_INDEX_SHIFT (by rw [two_pow_shift_eq]; omega)
        rw [two_pow_shift_eq, MAX_POOL_LEN_eq] at this
        exact this
  · exact ⟨rfl, rfl, by decide⟩

theorem free_then_malloc_lifo_witness :
    ∃ p₂ m₂,
      __rseq_percpu_malloc ⟨65536, 1, 8, 4096, 3, 2, [0], 0, none⟩ false
          (writeWord mem0 (__rseq_pool_percpu_ptr pool0 0 0) 0) =
        some (some (pool0.index <<< POOL_INDEX_SHIFT ||| 0), p₂, m₂) ∧
      (pool0.index <<< POOL_INDEX_SHIFT ||| 0) &&& MAX_POOL_LEN_MASK = 0 :=
  free_then_malloc_lifo.1 pool0 0 mem0 ⟨65536, 1, 8, 4096, 3, 2, [0], 0, none⟩
    (writeWord mem0 (__rseq_pool_percpu_ptr pool0 0 0) 0) rfl (by decide)

/-- Claim C7.  For a handle encoding `(pool_index i, item_offset off)`,
`__rseq_percpu_ptr` recovers base and stride from `directory[i]` and yields
`base + stride * cpu + off` for every cpu; hence for two CPUs `c1 < c2` the
two addresses differ by exactly `(c2 - c1) * stride`. -/
theorem percpu_ptr_addr (dir : Nat → PoolState) (i off cpu c1 c2 : Nat)
    (hoff : off < MAX_POOL_LEN) :
    __rseq_percpu_ptr (i <<< POOL_INDEX_SHIFT ||| off) dir cpu =
      (dir i).base + (dir i).percpu_len * cpu + off ∧
    (c1 < c2 →
      __rseq_percpu_ptr (i <<< POOL_INDEX_SHIFT ||| off) dir c2 -
        __rseq_percpu_ptr (i <<< POOL_INDEX_SHIFT ||| off) dir c1 =
      (c2 - c1) * (dir i).percpu_len) := by
  have hoff48 : off < 2 ^ POOL_INDEX_SHIFT := by rw [two_pow_shift_eq]; omega
  have hdec1 : (i <<< POOL_INDEX_SHIFT ||| off) >>> POOL_INDEX_SHIFT = i :=
    lor_shiftLeft_shiftRight _ _ _ hoff48
  have hdec2 : (i <<< POOL_INDEX_SHIFT ||| off) &&& MAX_POOL_LEN_MASK = off := by
    rw [MAX_POOL_LEN_MASK_eq]
    have := lor_shiftLeft_land i off POOL_INDEX_SHIFT hoff48
    rw [two_pow_shift_eq, MAX_POOL_LEN_eq] at this
    exact this
  have hptr : ∀ c, __rseq_percpu_ptr (i <<< POOL_INDEX_SHIFT ||| off) dir c =
      (dir i).base + (dir i).percpu_len * c + off := by
    intro c
    unfold __rseq_percpu_ptr __rseq_pool_percpu_ptr
    rw [hdec1, hdec2]
  refine ⟨hptr cpu, fun hc => ?_⟩
  rw [hptr c1, hptr c2]
  have hmul : (dir i).percpu_len * c2 =
      (dir i).percpu_len * c1 + (dir i).percpu_len * (c2 - c1) := by
    rw [← Nat.mul_add]
    congr 1
    omega
  have hmul2 : (c2 - c1) * (dir i).percpu_len = (dir i).percpu_len * (c2 - c1) :=
    Nat.mul_comm _ _
  omega

theorem percpu_ptr_addr_witness :
    (0 : Nat) < MAX_POOL_LEN ∧
    (__rseq_percpu_ptr (1 <<< POOL_INDEX_SHIFT ||| 0) dir32 3 =
      (dir32 1).base + (dir32 1).percpu_len * 3 + 0 ∧
    (1 < 2 →
      __rseq_percpu_ptr (1 <<< POOL_INDEX_SHIFT ||| 0) dir32 2 -
        __rseq_percpu_ptr (1 <<< POOL_INDEX_SHIFT ||| 0) dir32 1 =
      (2 - 1) * (dir32 1).percpu_len)) :=
  ⟨by decide, percpu_ptr_addr dir32 1 0 3 1 2 (by decide)⟩

theorem memset0_preserves_zero (mem : Mem) (p len a : Nat) (h : mem a = 0) :
    memset0 mem p len a = 0 := by
  unfold memset0
  split <;> simp [h]

theorem memset0_inside (mem : Mem) (p len a : Nat) (h1 : p ≤ a) (h2 : a < p + len) :
    memset0 mem p len a = 0 := by
  unfold memset0
  rw [if_pos ⟨h1, h2⟩]

theorem zero_item_upto_zero (pool : PoolState) (off : Nat) (mem : Mem) :
    ∀ n cpu j, cpu < n → j < pool.item_len →
      zero_item_upto pool off mem n (pool.base + pool.percpu_len * cpu + off + j) = 0 := by
  intro n
  induction n with
  | zero => intro cpu j hc; omega
  | succ m ih =>
    intro cpu j hc hj
    unfold zero_item_upto
    rcases Nat.lt_or_ge cpu m with h | h
    · exact memset0_preserves_zero _ _ _ _ (ih cpu j h hj)
    · have hcm : cpu = m := by omega
      subst hcm
      exact memset0_inside _ _ _ _ (by unfold __rseq_pool_percpu_ptr; omega)
        (by unfold __rseq_pool_percpu_ptr; omega)

/-- Claim C9.  When zmalloc returns a handle from a well-formed pool, then
for every cpu below `max_nr_cpus` all `item_len` bytes at
`base + stride * cpu + item_offset(handle)` read as zero afterwards --
for arbitrary prior memory contents, so in particular also when the slot
had been allocated, written to and freed before. -/
theorem zmalloc_zeroes_all_cpu_slices (p : PoolState) (mem : Mem) (hwf : p.wf)
    (addr : Nat) (p' : PoolState) (mem' : Mem)
    (h : rseq_percpu_zmalloc p mem = some (some addr, p', mem')) :
    ∀ cpu < p.max_nr_cpus, ∀ j < p.item_len,
      mem' (p.base + p.percpu_len * cpu + (addr &&& MAX_POOL_LEN_MASK) + j) = 0 := by
  obtain ⟨hpow, hidx1, hidx2, hplen, hdvd, hnext, hfree⟩ := hwf
  have hlen0 : 0 < p.item_len := by rw [hpow]; exact Nat.pos_pow_of_pos _ (by norm_num)
  have key : ∃ off p'', addr = p.index <<< POOL_INDEX_SHIFT ||| off ∧
      off + p.item_len ≤ p.percpu_len ∧
      mem' = rseq_percpu_zero_item p'' off mem ∧
      p''.base = p.base ∧ p''.percpu_len = p.percpu_len ∧
      p''.item_len = p.item_len ∧ p''.max_nr_cpus = p.max_nr_cpus := by
    unfold rseq_percpu_zmalloc __rseq_percpu_malloc at h
    rcases hl : p.free_list with _ | ⟨off, rest⟩ <;> simp only [hl] at h
    · split at h
      · simp at h
      · rename_i hroom
        rcases hm : mask_free_slot p.free_bitmap (p.next_unused >>> p.item_order)
            with _ | bm' <;> simp only [hm] at h
        · simp at h
        · simp only [Option.some.injEq, Prod.mk.injEq] at h
          exact ⟨p.next_unused, _, h.1.symm, by omega, h.2.2.symm, rfl, rfl, rfl, rfl⟩
    · simp only [Option.some.injEq, Prod.mk.injEq] at h
      exact ⟨off, _, h.1.symm, (hfree off (by rw [hl]; exact List.mem_cons_self _ _)).2,
        h.2.2.symm, rfl, rfl, rfl, rfl⟩
  obtain ⟨off, p'', haddr, hoffle, hmem, hb, hpl, hil, hmc⟩ := key
  have hoff48 : off < 2 ^ POOL_INDEX_SHIFT := by rw [two_pow_shift_eq]; omega
  have hdec2 : addr &&& MAX_POOL_LEN_MASK = off := by
    rw [haddr, MAX_POOL_LEN_MASK_eq]
    have := lor_shiftLeft_land p.index off POOL_INDEX_SHIFT hoff48
    rw [two_pow_shift_eq, MAX_POOL_LEN_eq] at this
    exact this
  intro cpu hcpu j hj
  rw [hdec2, hmem]
  unfold rseq_percpu_zero_item
  have := zero_item_upto_zero p'' off mem p''.max_nr_cpus cpu j
    (by rw [hmc]; exact hcpu) (by rw [hil]; exact hj)
  rw [hb, hpl] at this
  exact this

theorem zmalloc_zeroes_witness :
    pool0r.wf ∧
    ∀ cpu < pool0r.max_nr_cpus, ∀ j < pool0r.item_len,
      (rseq_percpu_zero_item ⟨65536, 1, 8, 4096, 3, 1, [], 8, some 1⟩ 0 mem0)
        (pool0r.base + pool0r.percpu_len * cpu +
          (((1 : Nat) <<< POOL_INDEX_SHIFT ||| 0) &&& MAX_POOL_LEN_MASK) + j) = 0 := by
  have hwf : pool0r.wf :=
    ⟨by decide, by decide, by decide, by decide, by decide, by decide, by decide⟩
  exact ⟨hwf, zmalloc_zeroes_all_cpu_slices pool0r mem0 hwf (1 <<< POOL_INDEX_SHIFT ||| 0)
    ⟨65536, 1, 8, 4096, 3, 1, [], 8, some 1⟩
    (rseq_percpu_zero_item ⟨65536, 1, 8, 4096, 3, 1, [], 8, some 1⟩ 0 mem0) rfl⟩

theorem find_from_none (entries : Nat → Option PoolState) (len : Nat) :
    ∀ fuel o, find_from entries len fuel o = none →
      ∀ k, o ≤ k → k < o + fuel → ∀ p, entries k = some p → p.item_len < len := by
  intro fuel
  induction fuel with
  | zero => intro o h k hk1 hk2; omega
  | succ f ih =>
    intro o h k hk1 hk2 p hp
    unfold find_from at h
    rcases he : entries o with _ | q <;> simp only [he] at h
    · rcases Nat.eq_or_lt_of_le hk1 with rfl | hlt
      · rw [he] at hp; cases hp
      · exact ih (o + 1) h k hlt (by omega) p hp
    · split at h
      · cases h
      · rename_i hql
        rcases Nat.eq_or_lt_of_le hk1 with rfl | hlt
        · rw [he] at hp
          injection hp with hpq
          subst hpq
          omega
        · exact ih (o + 1) h k hlt (by omega) p hp

theorem find_from_some (entries : Nat → Option PoolState) (len : Nat) :
    ∀ fuel o o' q, find_from entries len fuel o = some (o', q) →
      o ≤ o' ∧ o' < o + fuel ∧ entries o' = some q ∧ len ≤ q.item_len ∧
      ∀ k, o ≤ k → k < o' → ∀ p, entries k = some p → p.item_len < len := by
  intro fuel
  induction fuel with
  | zero => intro o o' q h; cases h
  | succ f ih =>
    intro o o' q h
    unfold find_from at h
    rcases he : entries o with _ | r <;> simp only [he] at h
    · obtain ⟨h1, h2, h3, h4, h5⟩ := ih (o + 1) o' q h
      refine ⟨by omega, by omega, h3, h4, ?_⟩
      intro k hk1 hk2 p hp
      rcases Nat.eq_or_lt_of_le hk1 with rfl | hlt
      · rw [he] at hp; cases hp
      · exact h5 k hlt hk2 p hp
    · split at h
      · rename_i hql
        injection h with h1
        injection h1 with ha hb
        subst ha
        subst hb
        exact ⟨le_refl _, by omega, he, hql, fun k hk1 hk2 p hp => by omega⟩
      · rename_i hql
        obtain ⟨h1, h2, h3, h4, h5⟩ := ih (o + 1) o' q h
        refine ⟨by omega, by omega, h3, h4, ?_⟩
        intro k hk1 hk2 p hp
        rcases Nat.eq_or_lt_of_le hk1 with rfl | hlt
        · rw [he] at hp
          injection hp with hpq
          subst hpq
          omega
        · exact h5 k hlt hk2 p hp

theorem malloc_nonrobust_cases (p : PoolState) (zeroed : Bool) (mem : Mem)
    (hnr : p.free_bitmap = none) :
    (∃ addr p' m', __rseq_percpu_malloc p zeroed mem = some (some addr, p', m')) ∨
      __rseq_percpu_malloc p zeroed mem = some (none, p, mem) := by
  unfold __rseq_percpu_malloc
  rcases hl : p.free_list with _ | ⟨off, rest⟩ <;> simp only [hl]
  · split
    · exact Or.inr rfl
    · simp only [hnr, mask_free_slot]
      exact Or.inl ⟨_, _, _, rfl⟩
  · exact Or.inl ⟨_, _, _, rfl⟩

theorem set_malloc_from_succ (entries : Nat → Option PoolState) (len : Nat) (zeroed : Bool)
    (mem : Mem) (mo f : Nat) :
    set_malloc_from entries len zeroed mem mo (f + 1) =
      match find_from entries len (POOL_SET_NR_ENTRIES - mo) mo with
      | none => (SetMallocResult.fail, entries, mem)
      | some (order, pool) =>
        match __rseq_percpu_malloc pool zeroed mem with
        | none => (SetMallocResult.abort, entries, mem)
        | some (none, _, _) => set_malloc_from entries len zeroed mem (order + 1) f
        | some (some addr, pool', mem') =>
          (SetMallocResult.ok addr, fun j => if j = order then some pool' else entries j,
            mem') := rfl

theorem set_malloc_from_fail_iff (entries : Nat → Option PoolState) (len : Nat)
    (zeroed : Bool) (mem : Mem)
    (hnr : ∀ o p, entries o = some p → p.free_bitmap = none) :
    ∀ fuel min_order, POOL_SET_NR_ENTRIES - min_order < fuel →
    ((set_malloc_from entries len zeroed mem min_order fuel).1 = SetMallocResult.fail ↔
      ∀ o, min_order ≤ o → o < POOL_SET_NR_ENTRIES → ∀ p, entries o = some p →
        len ≤ p.item_len → __rseq_percpu_malloc p zeroed mem = some (none, p, mem)) := by
  intro fuel
  induction fuel with
  | zero => intro mo h; omega
  | succ f ih =>
    intro mo hfuel
    rw [set_malloc_from_succ]
    rcases hf : find_from entries len (POOL_SET_NR_ENTRIES - mo) mo with _ | ⟨o', q⟩
    · refine iff_of_true (by simp [hf]) ?_
      intro o ho1 ho2 p hp hlp
      have := find_from_none entries len (POOL_SET_NR_ENTRIES - mo) mo hf o ho1 (by omega) p hp
      omega
    · obtain ⟨ho1, ho2, hoq, hql, hmin⟩ :=
        find_from_some entries len (POOL_SET_NR_ENTRIES - mo) mo o' q hf
      have ho48 : o' < POOL_SET_NR_ENTRIES := by omega
      simp only [hf]
      rcases malloc_nonrobust_cases q zeroed mem (hnr o' q hoq) with ⟨addr, q', m', hsucc⟩ | hfail
      · simp only [hsucc]
        refine iff_of_false ?_ ?_
        · intro hcon
          cases hcon
        · intro hall
          have := hall o' ho1 ho48 q hoq hql
          rw [hsucc] at this
          simp at this
      · simp only [hfail]
        rw [ih (o' + 1) (by omega)]
        constructor
        · intro hall o ho1' ho2' p hp hlp
          rcases Nat.lt_or_ge o (o' + 1) with hlt | hge
          · rcases Nat.lt_or_ge o o' with hlt' | hge'
            · have := hmin o ho1' hlt' p hp
              omega
            · have hoo : o = o' := by omega
              subst hoo
              rw [hp] at hoq
              injection hoq with hpq
              subst hpq
              exact hfail
          · exact hall o hge ho2' p hp hlp
        · intro hall o ho1' ho2' p hp hlp
          exact hall o (by omega) ho2' p hp hlp

theorem set_malloc_from_ok (entries : Nat → Option PoolState) (len : Nat)
    (zeroed : Bool) (mem : Mem)
    (hnr : ∀ o p, entries o = some p → p.free_bitmap = none) :
    ∀ fuel min_order addr entries' mem', POOL_SET_NR_ENTRIES - min_order < fuel →
    set_malloc_from entries len zeroed mem min_order fuel =
      (SetMallocResult.ok addr, entries', mem') →
    ∃ o q q' m', min_order ≤ o ∧ o < POOL_SET_NR_ENTRIES ∧ entries o = some q ∧
      len ≤ q.item_len ∧
      __rseq_percpu_malloc q zeroed mem = some (some addr, q', m') ∧
      ∀ k, min_order ≤ k → k < o → ∀ r, entries k = some r → len ≤ r.item_len →
        __rseq_percpu_malloc r zeroed mem = some (none, r, mem) := by
  intro fuel
  induction fuel with
  | zero => intro mo addr entries' mem' h; omega
  | succ f ih =>
    intro mo addr entries' mem' hfuel hres
    rw [set_malloc_from_succ] at hres
    rcases hf : find_from entries len (POOL_SET_NR_ENTRIES - mo) mo with _ | ⟨o', q⟩
    · simp only [hf] at hres
      simp at hres
    · obtain ⟨ho1, ho2, hoq, hql, hmin⟩ :=
        find_from_some entries len (POOL_SET_NR_ENTRIES - mo) mo o' q hf
      have ho48 : o' < POOL_SET_NR_ENTRIES := by omega
      rcases malloc_nonrobust_cases q zeroed mem (hnr o' q hoq) with ⟨a2, q', m2, hsucc⟩ | hfail
      · simp only [hf, hsucc, Prod.mk.injEq] at hres
        obtain ⟨ha, he, hm⟩ := hres
        injection ha with ha2
        refine ⟨o', q, q', m2, ho1, ho48, hoq, hql, by rw [← ha2]; exact hsucc, ?_⟩
        intro k hk1 hk2 r hr hlr
        have := hmin k hk1 hk2 r hr
        omega
      · simp only [hf, hfail] at hres
        obtain ⟨o, q2, q2', m2, hh1, hh2, hh3, hh4, hh5, hh6⟩ :=
          ih (o' + 1) addr entries' mem' (by omega) hres
        refine ⟨o, q2, q2', m2, by omega, hh2, hh3, hh4, hh5, ?_⟩
        intro k hk1 hk2 r hr hlr
        rcases Nat.lt_or_ge k (o' + 1) with hlt | hge
        · rcases Nat.lt_or_ge k o' with hlt' | hge'
          · have := hmin k hk1 hlt' r hr
            omega
          · have hko : k = o' := by omega
            subst hko
            rw [hr] at hoq
            injection hoq with hrq
            subst hrq
            exact hfail
        · exact hh6 k hge hk2 r hr hlr

theorem pool_set_start_order_eq (len : Nat) (h : 1 ≤ len) :
    pool_set_start_order len = max POOL_SET_MIN_ENTRY (clog2_aux len 64) := by
  have hne : ¬ len = 0 := by omega
  simp only [pool_set_start_order, rseq_get_count_order_ulong, hne, if_false, Int.ofNat_eq_coe]
  split <;> rename_i hc <;> omega

/-- The property claimed of pool-set allocation: the request fails with
errno = ENOMEM exactly when every non-NULL entry at or above the start
order whose item length fits `len` has its own allocation fail with
ENOMEM; a successful allocation comes from the smallest such entry whose
allocation succeeds (every fitting candidate at a smaller order having
failed with ENOMEM); and the start order is the ceiling log2 of `len`,
lower-bounded by the minimum order, with `len = 0` treated as the minimum
size class. -/
def pool_set_malloc_claim (entries : Nat → Option PoolState) (len : Nat) (zeroed : Bool)
    (mem : Mem) : Prop :=
  ((__rseq_percpu_pool_set_malloc entries len zeroed mem).1 = SetMallocResult.fail ↔
    ∀ o, pool_set_start_order len ≤ o → o < POOL_SET_NR_ENTRIES → ∀ p, entries o = some p →
      len ≤ p.item_len → __rseq_percpu_malloc p zeroed mem = some (none, p, mem)) ∧
  (∀ addr entries' mem',
    __rseq_percpu_pool_set_malloc entries len zeroed mem =
      (SetMallocResult.ok addr, entries', mem') →
    ∃ o q q' m', pool_set_start_order len ≤ o ∧ o < POOL_SET_NR_ENTRIES ∧
      entries o = some q ∧ len ≤ q.item_len ∧
      __rseq_percpu_malloc q zeroed mem = some (some addr, q', m') ∧
      ∀ k, pool_set_start_order len ≤ k → k < o → ∀ r, entries k = some r →
        len ≤ r.item_len → __rseq_percpu_malloc r zeroed mem = some (none, r, mem)) ∧
  pool_set_start_order 0 = POOL_SET_MIN_ENTRY ∧
  (1 ≤ len → pool_set_start_order len = max POOL_SET_MIN_ENTRY (clog2_aux len 64))

/-- Claim C8.  Pool-set allocation computes the start order as the ceiling
log2 of `len` lower-bounded by the minimum order (len = 0 giving the
minimum), serves the request from the smallest fitting non-NULL entry at
or above the start order whose pool allocation succeeds (retrying upward on
ENOMEM), and returns NULL with ENOMEM exactly when every fitting entry at
every remaining order fails; see `pool_set_malloc_claim`.  The hypothesis
restricts to non-robust member pools, whose allocations never abort. -/
theorem pool_set_malloc_spec (entries : Nat → Option PoolState) (len : Nat) (zeroed : Bool)
    (mem : Mem) (hnr : ∀ o p, entries o = some p → p.free_bitmap = none) :
    pool_set_malloc_claim entries len zeroed mem := by
  refine ⟨?_, ?_, by decide, pool_set_start_order_eq len⟩
  · exact set_malloc_from_fail_iff entries len zeroed mem hnr (POOL_SET_NR_ENTRIES + 1)
      (pool_set_start_order len) (by omega)
  · intro addr entries' mem' h
    exact set_malloc_from_ok entries len zeroed mem hnr (POOL_SET_NR_ENTRIES + 1)
      (pool_set_start_order len) addr entries' mem' (by omega) h

/-- A one-pool set: the non-robust `pool0` registered at its item order 3. -/
def entries0 : Nat → Option PoolState := fun o => if o = 3 then some pool0 else none

theorem pool_set_malloc_spec_witness : pool_set_malloc_claim entries0 4 false mem0 := by
  refine pool_set_malloc_spec entries0 4 false mem0 ?_
  intro o p h
  unfold entries0 at h
  split at h
  · injection h with hp
    rw [← hp]
    rfl
  · cases h

theorem pool_create_state_wf (il pl : Nat) (mc : Int) (page : Nat) (L ord S : Nat)
    (i base cpus : Nat) (robust : Bool)
    (hcheck : pool_create_check il pl mc page = some (L, ord, S))
    (hi1 : FIRST_POOL ≤ i) (hi2 : i < MAX_NR_POOLS) :
    (pool_create_state i base L ord S cpus robust).wf := by
  simp only [pool_create_check] at hcheck
  set m := if il < 8 then 8 else il with hm
  split at hcheck
  · cases hcheck
  · split at hcheck
    · cases hcheck
    · rename_i hord0 hok
      push_neg at hok
      obtain ⟨hok1, hok2, hok3⟩ := hok
      simp only [Option.some.injEq, Prod.mk.injEq] at hcheck
      obtain ⟨hL, hord, hS⟩ := hcheck
      rw [uintptr_shift_sanity] at hok3
      refine ⟨?_, hi1, hi2, ?_, ?_, ?_, ?_⟩
      · show L = 2 ^ ord
        rw [← hL, ← hord, Nat.shiftLeft_eq, one_mul]
      · show S ≤ MAX_POOL_LEN
        rw [MAX_POOL_LEN_eq]
        omega
      · show L ∣ 0
        exact Dvd.intro 0 rfl
      · show (0 : Nat) ≤ S
        omega
      · intro off hoff
        cases hoff

theorem malloc_preserves_wf (p : PoolState) (zeroed : Bool) (mem : Mem)
    (res : Option Nat) (p' : PoolState) (mem' : Mem) (hwf : p.wf)
    (h : __rseq_percpu_malloc p zeroed mem = some (res, p', mem')) : p'.wf := by
  obtain ⟨hpow, hidx1, hidx2, hplen, hdvd, hnext, hfree⟩ := hwf
  unfold __rseq_percpu_malloc at h
  rcases hl : p.free_list with _ | ⟨off, rest⟩ <;> simp only [hl] at h
  · split at h
    · simp only [Option.some.injEq, Prod.mk.injEq] at h
      obtain ⟨-, hp, -⟩ := h
      rw [← hp]
      exact ⟨hpow, hidx1, hidx2, hplen, hdvd, hnext, hfree⟩
    · rename_i hroom
      rcases hm : mask_free_slot p.free_bitmap (p.next_unused >>> p.item_order)
          with _ | bm' <;> simp only [hm] at h
      · simp at h
      · simp only [Option.some.injEq, Prod.mk.injEq] at h
        obtain ⟨-, hp, -⟩ := h
        rw [← hp]
        refine ⟨hpow, hidx1, hidx2, hplen, ?_, ?_, ?_⟩
        · exact Nat.dvd_add hdvd (dvd_refl _)
        · show p.next_unused + p.item_len ≤ p.percpu_len
          omega
        · intro o ho
          cases ho
  · simp only [Option.some.injEq, Prod.mk.injEq] at h
    obtain ⟨-, hp, -⟩ := h
    rw [← hp]
    refine ⟨hpow, hidx1, hidx2, hplen, hdvd, hnext, ?_⟩
    intro o ho
    exact hfree o (by rw [hl]; exact List.mem_cons_of_mem _ ho)

theorem free_preserves_wf (p : PoolState) (off : Nat) (mem : Mem)
    (p' : PoolState) (mem' : Mem) (hwf : p.wf)
    (hoffdvd : p.item_len ∣ off) (hoffle : off + p.item_len ≤ p.percpu_len)
    (h : rseq_percpu_free_body p off mem = some (p', mem')) : p'.wf := by
  obtain ⟨hpow, hidx1, hidx2, hplen, hdvd, hnext, hfree⟩ := hwf
  unfold rseq_percpu_free_body at h
  split at h
  · simp at h
  · simp only [Option.some.injEq, Prod.mk.injEq] at h
    obtain ⟨hp, -⟩ := h
    rw [← hp]
    refine ⟨hpow, hidx1, hidx2, hplen, hdvd, hnext, ?_⟩
    intro o ho
    rcases List.mem_cons.1 ho with rfl | ho'
    · exact ⟨hoffdvd, hoffle⟩
    · exact hfree o ho'
